import Mathlib

/-
Verification of the AlkuszAI retrieval-augmented chat system against its
specification.  The frontend (stream consumer `handleSend` in
ChatInterface, MetricsDashboard, DocumentUpload, DocumentBrowser) is
embedded directly from the TypeScript sources.  The backend components
(generation orchestrator, vector retriever, metrics collector) are not
part of the available sources; where a claim depends on them they are
modelled from the specification, and each such definition is marked
`Modelled from the spec:` in its doc comment.
-/

namespace AlkuszAI

/-! Data model, from the frontend api types and spec section 3. -/

/-- Source reference attached to an assistant message: chunk identity,
filename, page and relevance score (frontend `Source` type, spec section 3). -/
structure Source where
  doc_id : String
  filename : String
  page : Nat
  chunk_text : String
  relevance_score : ℚ
deriving DecidableEq

/-- Chat message as held by the frontend: id, role, content, creation
timestamp and an optional ordered Source list (frontend `Message` type). -/
structure Message where
  id : String
  role : String
  content : String
  created_at : String
  sources : Option (List Source) := none
deriving DecidableEq

/-- MetricEvent, spec section 3: one immutable record per resolved query
attempt with token counts, cost, latency breakdown and retrieval quality.
The `success` flag marks failed queries. -/
structure MetricEvent where
  timestamp : Int
  success : Bool
  input_tokens : Nat
  output_tokens : Nat
  cost_usd : ℚ
  retrieval_ms : ℚ
  first_token_ms : ℚ
  total_ms : ℚ
  chunk_count : Nat
  avg_relevance : ℚ
deriving DecidableEq

/-- Aggregate statistics served to the dashboard (frontend `MetricsStats`
shape used by MetricsDashboard, spec section 4.7). -/
structure MetricsStats where
  total_queries : Nat
  tokens_total : Nat
  tokens_avg_per_query : ℚ
  costs_total : ℚ
  costs_avg_per_query : ℚ
  avg_total_ms : ℚ
  avg_first_token_ms : ℚ
  avg_retrieval_ms : ℚ
  avg_sources : ℚ
  avg_relevance : ℚ
deriving DecidableEq

/-! Stream consumer, embedded from `handleSend` in ChatInterface
(src/unnamed/part_001, lines 21-123). -/

/-- Decoded server-sent event as dispatched by the consumer: the four
tags it matches are "conversation_id", "content", "sources" and "done". -/
inductive WireEvent where
  | conversationId (cid : String)
  | content (text : String)
  | sources (srcs : List Source)
  | done
deriving DecidableEq

/-- Wire tag string of each decoded event, exactly the strings the
consumer compares `data.type` against. -/
def wireTag : WireEvent → String
  | .conversationId _ => "conversation_id"
  | .content _ => "content"
  | .sources _ => "sources"
  | .done => "done"

/-- Tags handled by the dispatch chain of `handleSend`. -/
def handledTags : List String := ["conversation_id", "content", "sources", "done"]

/-- State accumulated by the stream loop of `handleSend`: the local
`fullContent` and `sources` variables and the `conversationId` component
state set by `setConversationId`. -/
structure StreamState where
  fullContent : String
  sources : List Source
  conversationId : Option String
deriving DecidableEq

/-- Initial stream state of `handleSend` before any event arrives:
`fullContent` empty, `sources` empty, no conversation id known yet. -/
def initialStreamState : StreamState :=
  { fullContent := "", sources := [], conversationId := none }

/-- Dispatch of one decoded event, from the if-chain on `data.type`:
"conversation_id" stores the id, "content" appends the fragment to
`fullContent`, "sources" replaces the source list, "done" leaves the
accumulated state unchanged (it only exits the line loop). -/
def applyEvent (st : StreamState) (e : WireEvent) : StreamState :=
  match e with
  | .conversationId cid => { st with conversationId := some cid }
  | .content t => { st with fullContent := st.fullContent ++ t }
  | .sources srcs => { st with sources := srcs }
  | .done => st

/-- Stream loop of `handleSend` at the level of decoded events in arrival
order; the terminal "done" branch has no effect on the accumulated state. -/
def processStream (st : StreamState) (es : List WireEvent) : StreamState :=
  es.foldl applyEvent st

/-- Content payloads of a wire stream, in arrival order. -/
def contentParts (es : List WireEvent) : List String :=
  es.filterMap fun e =>
    match e with
    | .content t => some t
    | _ => none

/-- Concatenation of a list of strings in order. -/
def joinAll : List String → String
  | [] => ""
  | s :: rest => s ++ joinAll rest

/-- Check that no content event occurs before the first conversation-id
event while scanning the stream in arrival order. -/
def idPrecedesContent : List WireEvent → Bool
  | [] => true
  | .content _ :: _ => false
  | .conversationId _ :: _ => true
  | _ :: rest => idPrecedesContent rest

/-- Model of the JavaScript `String.prototype.trim`: strip leading and
trailing whitespace. -/
def jsTrim (s : String) : String :=
  ⟨((s.data.dropWhile Char.isWhitespace).reverse.dropWhile Char.isWhitespace).reverse⟩

/-- Model of `line.startsWith("data: ")` used by the consumer to select
data lines of the server-sent event stream. -/
def startsWithData (line : String) : Bool :=
  line.data.take 6 == "data: ".data

/-- Model of `line.slice(n)`: drop the first n characters. -/
def strSlice (s : String) (n : Nat) : String := ⟨s.data.drop n⟩

/-- Per-line processing of one received chunk, from the `for` loop over
`chunk.split(sep)` in `handleSend`: a line not starting with "data: " is
ignored; a payload that fails to decode (the `catch` branch logging the
parse error) is skipped and processing continues; a decoded "done" event
exits the loop; any other decoded event is dispatched and processing
continues with the next line.  The JSON layer is abstracted as `decode`. -/
def chunkLineLoop (decode : String → Option WireEvent) (st : StreamState) :
    List String → StreamState
  | [] => st
  | line :: rest =>
    if startsWithData line then
      match decode (strSlice line 6) with
      | some WireEvent.done => st
      | some e => chunkLineLoop decode (applyEvent st e) rest
      | none => chunkLineLoop decode st rest
    else
      chunkLineLoop decode st rest

/-- Error branch of `handleSend`: remove the in-progress assistant
message from the displayed list (the filter on `msg.id !== assistantMsgId`). -/
def removeAssistantOnError (msgs : List Message) (assistantMsgId : String) : List Message :=
  msgs.filter fun m => m.id != assistantMsgId

/-- Component state of ChatInterface touched by `handleSend`. -/
structure ChatState where
  messages : List Message
  input : String
  loading : Bool
  conversationId : Option String
deriving DecidableEq

/-- Entry of `handleSend` up to issuing the network request: the guard
`if (!input.trim() || loading) return` leaves the state unchanged and
issues no request (second component false); otherwise the input is
cleared, loading is set, and the user message plus the empty assistant
placeholder are appended.  `now` stands for `Date.now()`; the creation
timestamp string is abstracted as its decimal rendering. -/
def handleSendStep (st : ChatState) (now : Nat) : ChatState × Bool :=
  if (jsTrim st.input == "") || st.loading then
    (st, false)
  else
    let userMsg : Message :=
      { id := toString now, role := "user", content := st.input,
        created_at := toString now, sources := none }
    let assistantMsg : Message :=
      { id := toString (now + 1), role := "assistant", content := "",
        created_at := toString now, sources := none }
    ({ st with
        input := ""
        loading := true
        messages := st.messages ++ [userMsg, assistantMsg] }, true)

/-! Generation orchestrator stream.  The backend orchestrator is not in
the available sources; it is modelled from spec sections 4.5 and 9. -/

/-- Modelled from the spec: the typed event stream of the answer channel,
a tagged union with exactly the five kinds ContentFragment,
ConversationAssigned, SourcesAttached, Completed, Failed (spec section 9);
the terminal Completed event carries the resolved conversation identity
and the Source list (spec section 4.5). -/
inductive AnswerEvent where
  | contentFragment (text : String)
  | conversationAssigned (cid : String)
  | sourcesAttached (srcs : List Source)
  | completed (cid : String) (srcs : List Source)
  | failed (kind : String) (detail : String)
deriving DecidableEq

/-- Terminal events of the answer stream: Completed and Failed. -/
def isTerminal : AnswerEvent → Bool
  | .completed _ _ => true
  | .failed _ _ => true
  | _ => false

/-- Wire framing of each typed event as a tagged data line of the
server-sent stream consumed by `handleSend`; a Failed event is surfaced
as a transport error rather than a data line. -/
def eventToWire : AnswerEvent → Option WireEvent
  | .contentFragment t => some (WireEvent.content t)
  | .conversationAssigned cid => some (WireEvent.conversationId cid)
  | .sourcesAttached srcs => some (WireEvent.sources srcs)
  | .completed _ _ => some WireEvent.done
  | .failed _ _ => none

/-- Modelled from the spec: the event sequence emitted for one successful
streamed query (spec section 4.5) — the conversation identity is resolved
at INIT and its event precedes every content fragment; the fragments are
emitted in generation order; the Source list is attached and exactly one
terminal Completed event closes the stream. -/
def orchestratorStream (cid : String) (frags : List String) (srcs : List Source) :
    List AnswerEvent :=
  AnswerEvent.conversationAssigned cid ::
    (frags.map AnswerEvent.contentFragment ++
      [AnswerEvent.sourcesAttached srcs, AnswerEvent.completed cid srcs])

/-- Persistent outcome state of one query: the persisted message history
and the append-only metric log (spec sections 3 and 4.5). -/
structure QueryOutcome where
  persistedMessages : List Message
  metricLog : List MetricEvent
deriving DecidableEq

/-- Modelled from the spec: the ERROR transition of the orchestrator
(spec sections 4.5 and 7) — the partial assistant turn is discarded, so
no message is persisted, and a MetricEvent marked failed is appended with
the latency measured up to the failure (`ev` carries the measured
values; only its success flag is forced to false). -/
def failQuery (store : QueryOutcome) (ev : MetricEvent) : QueryOutcome :=
  { persistedMessages := store.persistedMessages
    metricLog := store.metricLog ++ [{ ev with success := false }] }

/-! Metrics collector, modelled from spec section 4.7; the dashboard side
is embedded from MetricsDashboard.tsx. -/

/-- Modelled from the spec: the events of the store that fall in the
requested window — all events when the window is omitted, otherwise the
events with timestamp within the closed interval from now - window to
now. -/
def eventsInWindow (events : List MetricEvent) (now : Int) (window : Option Int) :
    List MetricEvent :=
  match window with
  | none => events
  | some w => events.filter fun e => now - w ≤ e.timestamp ∧ e.timestamp ≤ now

/-- Sum of a rational-valued field over a list of events. -/
def sumQ (f : MetricEvent → ℚ) : List MetricEvent → ℚ
  | [] => 0
  | e :: rest => f e + sumQ f rest

/-- Sum of a natural-valued field over a list of events. -/
def sumN (f : MetricEvent → Nat) : List MetricEvent → Nat
  | [] => 0
  | e :: rest => f e + sumN f rest

/-- Average of a rational-valued field, zero on an empty list. -/
def avgQ (f : MetricEvent → ℚ) (evs : List MetricEvent) : ℚ :=
  if evs.length = 0 then 0 else sumQ f evs / (evs.length : ℚ)

/-- Modelled from the spec: the aggregate over a list of events — total
query count, token totals and per-query averages, cost totals and
averages, average latencies, average source count and average relevance
(spec section 4.7).  On an empty list every field is the defined
"no data" value zero. -/
def aggregate (evs : List MetricEvent) : MetricsStats :=
  { total_queries := evs.length
    tokens_total := sumN (fun e => e.input_tokens + e.output_tokens) evs
    tokens_avg_per_query := avgQ (fun e => (e.input_tokens + e.output_tokens : Nat)) evs
    costs_total := sumQ (fun e => e.cost_usd) evs
    costs_avg_per_query := avgQ (fun e => e.cost_usd) evs
    avg_total_ms := avgQ (fun e => e.total_ms) evs
    avg_first_token_ms := avgQ (fun e => e.first_token_ms) evs
    avg_retrieval_ms := avgQ (fun e => e.retrieval_ms) evs
    avg_sources := avgQ (fun e => (e.chunk_count : ℚ)) evs
    avg_relevance := avgQ (fun e => e.avg_relevance) evs }

/-- Modelled from the spec: `stats(window?)` aggregates the recorded
events falling in the window; zero matching events yield the defined
"no data" aggregate, never an error (spec section 4.7). -/
def stats (events : List MetricEvent) (now : Int) (window : Option Int) : MetricsStats :=
  aggregate (eventsInWindow events now window)

/-- Result state of the dashboard after `loadStats` resolves: either the
stats are shown or the error panel is shown (MetricsDashboard.tsx,
`loadStats` try/catch and the render branches on `error` and `stats`). -/
inductive DashboardView where
  | showStats (s : MetricsStats)
  | showError (msg : String)
deriving DecidableEq

/-- Dispatch of `loadStats` on the transport result, from
MetricsDashboard.tsx lines 15-30: a successful response stores the stats,
a failed request stores the error message. -/
def loadStats (result : Except String MetricsStats) : DashboardView :=
  match result with
  | Except.ok s => DashboardView.showStats s
  | Except.error e => DashboardView.showError e

/-- Time ranges offered by the dashboard selector: 1 hour, 24 hours, or
undefined for all time (MetricsDashboard.tsx lines 79-98). -/
def timeRangeChoices : List (Option Int) := [some 1, some 24, none]

/-- Percentage rendering of the aggregate average relevance
(MetricsDashboard.tsx line 191: `avg_relevance * 100`). -/
def dashboardRelevancePercent (s : MetricsStats) : ℚ :=
  s.avg_relevance * 100

/-! Vector retriever, modelled from spec section 4.3; the source
rendering side is embedded from ChatInterface (src/unnamed/part_001,
lines 168-188). -/

/-- Chunk record, spec section 3: document identity, ordinal index,
source page, raw text and token count. -/
structure Chunk where
  docId : String
  ordinal : Nat
  page : Nat
  text : String
  tokenCount : Nat
deriving DecidableEq

/-- Modelled from the spec: normalization of a cosine similarity in
[-1, 1] to a relevance score in [0, 1] (spec sections 4.3 and glossary). -/
def normalizeCosine (x : ℚ) : ℚ := (x + 1) / 2

/-- Stable descending insertion by relevance: an element is placed before
the first element of smaller or equal relevance, so for equal relevance
an earlier chunk keeps its earlier position (spec section 4.3 tie rule). -/
def insertDesc (p : Chunk × ℚ) : List (Chunk × ℚ) → List (Chunk × ℚ)
  | [] => [p]
  | q :: rest => if q.2 ≤ p.2 then p :: q :: rest else q :: insertDesc p rest

/-- Stable insertion sort, descending by relevance. -/
def sortDesc : List (Chunk × ℚ) → List (Chunk × ℚ)
  | [] => []
  | p :: rest => insertDesc p (sortDesc rest)

/-- Modelled from the spec: the query path of the vector retriever (spec
section 4.3) — each stored chunk is scored by its cosine similarity with
the query embedding normalized to [0, 1], only chunks at or above the
relevance floor are kept, results are sorted descending by relevance with
ties broken by insertion order, and the top k are returned; when no chunk
qualifies the result is the empty sequence, not an error.  The cosine
similarity of each stored vector with the query is abstracted as the
rational paired with the chunk. -/
def vectorQuery (stored : List (Chunk × ℚ)) (k : Nat) (minRelevance : ℚ) :
    Except String (List (Chunk × ℚ)) :=
  let scored := stored.map fun p => (p.1, normalizeCosine p.2)
  let kept := scored.filter fun p => minRelevance ≤ p.2
  Except.ok ((sortDesc kept).take k)

/-- Source list attached to an answer, built from the retrieved chunks in
order with their relevance scores; the filename is resolved from the
document identity. -/
def sourcesFrom (fname : String → String) (res : List (Chunk × ℚ)) : List Source :=
  res.map fun p =>
    { doc_id := p.1.docId, filename := fname p.1.docId, page := p.1.page,
      chunk_text := p.1.text, relevance_score := p.2 }

/-- Condition under which ChatInterface renders the sources block of a
message, from src/unnamed/part_001 line 168:
`msg.sources && msg.sources.length > 0`. -/
def rendersSources (m : Message) : Bool :=
  match m.sources with
  | none => false
  | some srcs => decide (0 < srcs.length)

/-- Percentage rendering of one source relevance score, from
src/unnamed/part_001 line 183: `source.relevance_score * 100`. -/
def sourcePercent (s : Source) : ℚ := s.relevance_score * 100

/-! Document upload, embedded from DocumentUpload.tsx. -/

/-- File metadata as seen by the upload component. -/
structure FileInfo where
  name : String
  size : Nat
deriving DecidableEq

/-- Component state of DocumentUpload touched by the drop handler. -/
structure UploadState where
  selectedFile : Option FileInfo
  uploadSuccess : Bool
  dragOver : Bool
deriving DecidableEq

/-- Drop handler from DocumentUpload.tsx lines 19-27: drag-over is
cleared and, when the drop carries at least one file, the first file is
selected unconditionally — no check of its name or type is performed. -/
def handleDrop (st : UploadState) (files : List FileInfo) : UploadState :=
  match files with
  | [] => { st with dragOver := false }
  | f :: _ =>
    { st with
        dragOver := false
        selectedFile := some f
        uploadSuccess := false }

/-- Extensions listed in the accept attribute of the file picker input
(DocumentUpload.tsx line 75: `accept=".pdf,.docx,.txt"`). -/
def acceptAttr : List String := [".pdf", ".docx", ".txt"]

/-- Model of the JavaScript `String.prototype.endsWith`. -/
def jsEndsWith (s suffix : String) : Bool :=
  s.data.drop (s.data.length - suffix.data.length) == suffix.data

/-- Check whether a filename carries one of the extensions admitted by
the file picker accept attribute. -/
def hasAcceptedExtension (name : String) : Bool :=
  acceptAttr.any fun ext => jsEndsWith name ext

/-- Wire framing of the full emitted stream of one successful query, as
the consumer receives it. -/
def wireStream (cid : String) (frags : List String) (srcs : List Source) :
    List WireEvent :=
  (orchestratorStream cid frags srcs).filterMap eventToWire

/-! Helper lemmas. -/

theorem wireStream_eq (cid : String) (frags : List String) (srcs : List Source) :
    wireStream cid frags srcs =
      WireEvent.conversationId cid ::
        (frags.map WireEvent.content ++ [WireEvent.sources srcs, WireEvent.done]) := by
  simp only [wireStream, orchestratorStream, List.filterMap_cons, List.filterMap_append,
    List.filterMap_map, eventToWire]
  induction frags with
  | nil => rfl
  | cons f rest ih => simpa [Function.comp, eventToWire] using ih

theorem processStream_cons (st : StreamState) (e : WireEvent) (es : List WireEvent) :
    processStream st (e :: es) = processStream (applyEvent st e) es := rfl

theorem applyEvent_fullContent (st : StreamState) (e : WireEvent) :
    (applyEvent st e).fullContent =
      st.fullContent ++ (match e with | WireEvent.content t => t | _ => "") := by
  cases e <;> simp [applyEvent]

theorem processStream_fullContent (es : List WireEvent) (st : StreamState) :
    (processStream st es).fullContent = st.fullContent ++ joinAll (contentParts es) := by
  induction es generalizing st with
  | nil => simp [processStream, contentParts, joinAll]
  | cons e rest ih =>
    rw [processStream_cons, ih]
    cases e <;>
      simp [applyEvent, contentParts, joinAll, List.filterMap_cons, String.append_assoc]

theorem processStream_conversationId_of_no_id (es : List WireEvent) (st : StreamState)
    (h : ∀ c, WireEvent.conversationId c ∉ es) :
    (processStream st es).conversationId = st.conversationId := by
  induction es generalizing st with
  | nil => rfl
  | cons e rest ih =>
    rw [processStream_cons]
    have hrest : ∀ c, WireEvent.conversationId c ∉ rest := fun c hc =>
      h c (List.mem_cons_of_mem _ hc)
    rw [ih _ hrest]
    cases e with
    | conversationId c => exact absurd (List.mem_cons_self _ _) (h c)
    | content t => rfl
    | sources s => rfl
    | done => rfl

theorem contentParts_wireStream (cid : String) (frags : List String) (srcs : List Source) :
    contentParts (wireStream cid frags srcs) = frags := by
  rw [wireStream_eq]
  simp only [contentParts, List.filterMap_cons, List.filterMap_append, List.filterMap_map]
  induction frags with
  | nil => rfl
  | cons f rest ih => simpa [Function.comp] using ih

theorem mem_insertDesc (p q : Chunk × ℚ) (l : List (Chunk × ℚ)) :
    q ∈ insertDesc p l ↔ q = p ∨ q ∈ l := by
  induction l with
  | nil => simp [insertDesc]
  | cons r rest ih =>
    by_cases h : r.2 ≤ p.2
    · simp [insertDesc, h]
    · simp only [insertDesc, if_neg h, List.mem_cons, ih]
      tauto

theorem mem_sortDesc (q : Chunk × ℚ) (l : List (Chunk × ℚ)) :
    q ∈ sortDesc l ↔ q ∈ l := by
  induction l with
  | nil => simp [sortDesc]
  | cons r rest ih => simp [sortDesc, mem_insertDesc, ih]

theorem normalizeCosine_mem_unit (x : ℚ) (h1 : -1 ≤ x) (h2 : x ≤ 1) :
    0 ≤ normalizeCosine x ∧ normalizeCosine x ≤ 1 := by
  unfold normalizeCosine
  constructor
  · exact div_nonneg (by linarith) (by norm_num)
  · rw [div_le_one (by norm_num)]
    linarith

theorem sumQ_bounds (f : MetricEvent → ℚ) (l : List MetricEvent)
    (h : ∀ e ∈ l, 0 ≤ f e ∧ f e ≤ 1) :
    0 ≤ sumQ f l ∧ sumQ f l ≤ (l.length : ℚ) := by
  induction l with
  | nil => simp [sumQ]
  | cons e rest ih =>
    have he := h e (List.mem_cons_self _ _)
    have hrest := ih fun x hx => h x (List.mem_cons_of_mem _ hx)
    simp only [sumQ, List.length_cons]
    push_cast
    constructor
    · linarith [he.1, hrest.1]
    · linarith [he.2, hrest.2]

theorem avgQ_unit (f : MetricEvent → ℚ) (l : List MetricEvent)
    (h : ∀ e ∈ l, 0 ≤ f e ∧ f e ≤ 1) :
    0 ≤ avgQ f l ∧ avgQ f l ≤ 1 := by
  unfold avgQ
  by_cases hl : l.length = 0
  · simp [hl]
  · have hb := sumQ_bounds f l h
    have hpos : (0 : ℚ) < (l.length : ℚ) := by
      have := Nat.pos_of_ne_zero hl
      exact_mod_cast this
    rw [if_neg hl]
    constructor
    · exact div_nonneg hb.1 (le_of_lt hpos)
    · rw [div_le_one hpos]
      exact hb.2

/-! Claim theorems. -/

/-- C1: for every streamed query the conversation-identity event arrives
before the first content fragment (no content event precedes it, and the
conversation id is known after every nonempty prefix of the stream), and
the content fragments reach the consumer in generation order, which
`handleSend` concatenates in arrival order into the final answer text. -/
theorem conversation_identity_precedes_fragments (cid : String) (frags : List String)
    (srcs : List Source) :
    idPrecedesContent (wireStream cid frags srcs) = true ∧
    (∀ n : Nat,
      (processStream initialStreamState ((wireStream cid frags srcs).take (n + 1))).conversationId
        = some cid) ∧
    contentParts (wireStream cid frags srcs) = frags ∧
    (processStream initialStreamState (wireStream cid frags srcs)).fullContent
      = joinAll frags := by
  have hws := wireStream_eq cid frags srcs
  refine ⟨?_, ?_, contentParts_wireStream cid frags srcs, ?_⟩
  · rw [hws]; rfl
  · intro n
    rw [hws]
    simp only [List.take_succ_cons, processStream_cons]
    have hnoid : ∀ c, WireEvent.conversationId c ∉
        ((frags.map WireEvent.content ++ [WireEvent.sources srcs, WireEvent.done]).take n) := by
      intro c hc
      have hmem := List.mem_of_mem_take hc
      rcases List.mem_append.mp hmem with hmap | hfix
      · rcases List.mem_map.mp hmap with ⟨t, _, ht⟩
        exact WireEvent.noConfusion ht
      · rcases List.mem_cons.mp hfix with h1 | h2
        · exact WireEvent.noConfusion h1
        · rcases List.mem_cons.mp h2 with h3 | h4
          · exact WireEvent.noConfusion h3
          · exact List.not_mem_nil _ h4
    rw [processStream_conversationId_of_no_id _ _ hnoid]
    rfl
  · rw [processStream_fullContent, contentParts_wireStream]
    exact String.empty_append _

/-- Witness for C1 at a concrete stream: identity first, two fragments in
order concatenated to the final answer. -/
theorem conversation_identity_precedes_fragments_witness :
    idPrecedesContent (wireStream "c1" ["Jégkár ", "100%"] []) = true ∧
    (processStream initialStreamState (wireStream "c1" ["Jégkár ", "100%"] [])).fullContent
      = "Jégkár 100%" := by
  have h := conversation_identity_precedes_fragments "c1" ["Jégkár ", "100%"] []
  exact ⟨h.1, by rw [h.2.2.2]; rfl⟩

/-- C5: every event of the answer stream is one of the five tagged kinds
ContentFragment, ConversationAssigned, SourcesAttached, Completed,
Failed; the stream of a query contains exactly one terminal event and it
carries the resolved conversation identity and the Source list; and every
wire-framed event of the stream carries one of the four tags the consumer
dispatches on. -/
theorem answer_stream_five_kinds_one_terminal (cid : String) (frags : List String)
    (srcs : List Source) :
    (∀ e ∈ orchestratorStream cid frags srcs,
      (∃ t, e = AnswerEvent.contentFragment t) ∨
      (∃ c, e = AnswerEvent.conversationAssigned c) ∨
      (∃ s, e = AnswerEvent.sourcesAttached s) ∨
      (∃ c s, e = AnswerEvent.completed c s) ∨
      (∃ k d, e = AnswerEvent.failed k d)) ∧
    (orchestratorStream cid frags srcs).filter isTerminal
      = [AnswerEvent.completed cid srcs] ∧
    (∀ w ∈ wireStream cid frags srcs, wireTag w ∈ handledTags) := by
  refine ⟨?_, ?_, ?_⟩
  · intro e _
    cases e with
    | contentFragment t => exact Or.inl ⟨t, rfl⟩
    | conversationAssigned c => exact Or.inr (Or.inl ⟨c, rfl⟩)
    | sourcesAttached s => exact Or.inr (Or.inr (Or.inl ⟨s, rfl⟩))
    | completed c s => exact Or.inr (Or.inr (Or.inr (Or.inl ⟨c, s, rfl⟩)))
    | failed k d => exact Or.inr (Or.inr (Or.inr (Or.inr ⟨k, d, rfl⟩)))
  · simp only [orchestratorStream, List.filter_cons, List.filter_append]
    have hfrag : (frags.map AnswerEvent.contentFragment).filter isTerminal = [] := by
      induction frags with
      | nil => rfl
      | cons f rest ih => simp [isTerminal, ih]
    rw [hfrag]
    rfl
  · intro w hw
    rw [wireStream_eq] at hw
    rcases List.mem_cons.mp hw with h1 | h2
    · subst h1; simp [wireTag, handledTags]
    · rcases List.mem_append.mp h2 with hmap | hfix
      · rcases List.mem_map.mp hmap with ⟨t, _, ht⟩
        subst ht; simp [wireTag, handledTags]
      · rcases List.mem_cons.mp hfix with h3 | h4
        · subst h3; simp [wireTag, handledTags]
        · rcases List.mem_cons.mp h4 with h5 | h6
          · subst h5; simp [wireTag, handledTags]
          · exact absurd h6 (List.not_mem_nil _)

/-- Witness for C5 at a concrete stream: the unique terminal event of a
one-fragment query carries the conversation identity and source list. -/
theorem answer_stream_five_kinds_one_terminal_witness :
    (orchestratorStream "c2" ["válasz"] []).filter isTerminal
      = [AnswerEvent.completed "c2" []] :=
  (answer_stream_five_kinds_one_terminal "c2" ["válasz"] []).2.1

/-- C8: a received line that does not start with "data: ", or whose
payload fails to decode, is skipped by the stream loop: processing of the
remaining lines continues from an unchanged state, so a malformed line
never aborts the stream or corrupts the accumulated answer. -/
theorem malformed_line_skipped (decode : String → Option WireEvent) (st : StreamState)
    (pre post : List String) (bad : String)
    (h : startsWithData bad = false ∨ decode (strSlice bad 6) = none) :
    chunkLineLoop decode st (pre ++ bad :: post) = chunkLineLoop decode st (pre ++ post) := by
  induction pre generalizing st with
  | nil =>
    simp only [List.nil_append]
    cases hs : startsWithData bad with
    | false => simp [chunkLineLoop, hs]
    | true =>
      rcases h with h1 | h2
      · rw [hs] at h1; exact absurd h1 (by simp)
      · simp [chunkLineLoop, hs, h2]
  | cons l rest ih =>
    simp only [List.cons_append]
    cases hs : startsWithData l with
    | false => simp only [chunkLineLoop, hs, Bool.false_eq_true, if_false]; exact ih st
    | true =>
      cases hd : decode (strSlice l 6) with
      | none => simp only [chunkLineLoop, hs, if_true, hd]; exact ih st
      | some e =>
        cases e with
        | done => simp [chunkLineLoop, hs, hd]
        | conversationId c =>
          simp only [chunkLineLoop, hs, if_true, hd]; exact ih _
        | content t =>
          simp only [chunkLineLoop, hs, if_true, hd]; exact ih _
        | sources s =>
          simp only [chunkLineLoop, hs, if_true, hd]; exact ih _

/-- Witness for C8: a line without the data marker is skipped between two
well-formed lines under a decoder that rejects every payload. -/
theorem malformed_line_skipped_witness :
    (startsWithData "garbage" = false ∨
      (fun _ : String => (none : Option WireEvent)) (strSlice "garbage" 6) = none) ∧
    chunkLineLoop (fun _ => none) initialStreamState (["data: x"] ++ "garbage" :: ["data: y"])
      = chunkLineLoop (fun _ => none) initialStreamState (["data: x"] ++ ["data: y"]) :=
  ⟨Or.inl (by decide),
    malformed_line_skipped (fun _ => none) initialStreamState ["data: x"] ["data: y"]
      "garbage" (Or.inl (by decide))⟩

/-- C9: when the input is empty or whitespace-only, or a request is still
in flight, `handleSend` returns at its guard: the component state is
unchanged (in particular the message list and conversation id) and no
network request is issued. -/
theorem handleSend_guard_noop (st : ChatState) (now : Nat)
    (h : ((jsTrim st.input == "") || st.loading) = true) :
    handleSendStep st now = (st, false) ∧
    (handleSendStep st now).1.messages = st.messages ∧
    (handleSendStep st now).1.conversationId = st.conversationId := by
  have hstep : handleSendStep st now = (st, false) := by
    unfold handleSendStep
    rw [if_pos h]
  exact ⟨hstep, by rw [hstep], by rw [hstep]⟩

/-- Witness for C9: whitespace-only input with no request in flight
leaves the state untouched and issues no request. -/
theorem handleSend_guard_noop_witness :
    ((jsTrim (ChatState.mk [] "   " false none).input == "")
        || (ChatState.mk [] "   " false none).loading) = true ∧
    handleSendStep (ChatState.mk [] "   " false none) 0
      = (ChatState.mk [] "   " false none, false) :=
  ⟨by decide, (handleSend_guard_noop (ChatState.mk [] "   " false none) 0 (by decide)).1⟩

/-- Sample metric event used by concrete witnesses. -/
def sampleEvent (t : Int) : MetricEvent :=
  { timestamp := t, success := true, input_tokens := 120, output_tokens := 80,
    cost_usd := 1, retrieval_ms := 40, first_token_ms := 300, total_ms := 900,
    chunk_count := 3, avg_relevance := 1 }

/-- C2: zero events in the requested window yield the defined "no data"
aggregate, not an error: the dashboard receives a successful response,
shows the stats, and this outcome is distinct from the error panel shown
for a failed transport request. -/
theorem stats_empty_window_no_data (evs : List MetricEvent) (now : Int) (w : Int)
    (h : eventsInWindow evs now (some w) = []) :
    stats evs now (some w) = aggregate [] ∧
    (stats evs now (some w)).total_queries = 0 ∧
    loadStats (Except.ok (stats evs now (some w)))
      = DashboardView.showStats (stats evs now (some w)) ∧
    (∀ msg, loadStats (Except.ok (stats evs now (some w)))
      ≠ DashboardView.showError msg) := by
  refine ⟨?_, ?_, rfl, ?_⟩
  · rw [stats, h]
  · rw [stats, h]; rfl
  · intro msg hcontra
    exact DashboardView.noConfusion hcontra

/-- Witness for C2: a store whose only event lies outside the one-hour
window produces the no-data aggregate and the stats view, not the error
view. -/
theorem stats_empty_window_no_data_witness :
    eventsInWindow [sampleEvent 50] 1000 (some 10) = [] ∧
    stats [sampleEvent 50] 1000 (some 10) = aggregate [] ∧
    (stats [sampleEvent 50] 1000 (some 10)).total_queries = 0 :=
  have h : eventsInWindow [sampleEvent 50] 1000 (some 10) = [] := by decide
  have hmain := stats_empty_window_no_data [sampleEvent 50] 1000 10 h
  ⟨h, hmain.1, hmain.2.1⟩

/-- C3: the total query count of `stats` with a window equals the number
of recorded events with timestamp in the closed interval from now minus
the window to now, and with the window omitted it equals the count of all
recorded events; the dashboard passes exactly the window choices 1, 24 or
undefined. -/
theorem stats_window_count (evs : List MetricEvent) (now : Int) (w : Int) :
    (stats evs now (some w)).total_queries
      = evs.countP (fun e => decide (now - w ≤ e.timestamp ∧ e.timestamp ≤ now)) ∧
    (stats evs now none).total_queries = evs.length ∧
    timeRangeChoices = [some 1, some 24, none] := by
  refine ⟨?_, rfl, rfl⟩
  rw [List.countP_eq_length_filter]
  rfl

/-- Witness for C3: of two recorded events only the one inside the window
is counted, and the windowless count is the full event count. -/
theorem stats_window_count_witness :
    (stats [sampleEvent 95, sampleEvent 50] 100 (some 10)).total_queries
      = [sampleEvent 95, sampleEvent 50].countP
          (fun e => decide (100 - 10 ≤ e.timestamp ∧ e.timestamp ≤ 100)) ∧
    (stats [sampleEvent 95, sampleEvent 50] 100 none).total_queries = 2 := by
  have h := stats_window_count [sampleEvent 95, sampleEvent 50] 100 10
  exact ⟨h.1, by rw [h.2.1]; rfl⟩

/-- C4: on a generation failure the partial assistant turn is never
persisted — the chat client removes the in-progress assistant message
from the displayed list, keeping every other message — while a
MetricEvent marked failed is still appended to the metric log with the
latency measured up to the failure. -/
theorem failed_query_discards_partial_turn (msgs : List Message) (aid : String)
    (store : QueryOutcome) (ev : MetricEvent) :
    (∀ m ∈ removeAssistantOnError msgs aid, m.id ≠ aid) ∧
    (∀ m ∈ msgs, m.id ≠ aid → m ∈ removeAssistantOnError msgs aid) ∧
    (failQuery store ev).persistedMessages = store.persistedMessages ∧
    (failQuery store ev).metricLog = store.metricLog ++ [{ ev with success := false }] ∧
    ({ ev with success := false } : MetricEvent).success = false ∧
    ({ ev with success := false } : MetricEvent).total_ms = ev.total_ms := by
  refine ⟨?_, ?_, rfl, rfl, rfl, rfl⟩
  · intro m hm
    have := List.of_mem_filter hm
    simpa using this
  · intro m hm hne
    refine List.mem_filter.mpr ⟨hm, ?_⟩
    simpa using hne

/-- Witness for C4: a concrete in-progress assistant message is removed
on error and the failed metric event is appended unchanged except for its
success flag. -/
theorem failed_query_discards_partial_turn_witness :
    (∀ m ∈ removeAssistantOnError
        [Message.mk "7" "assistant" "fél válasz" "0" none] "7", m.id ≠ "7") ∧
    (∀ m ∈ [Message.mk "7" "assistant" "fél válasz" "0" none],
      m.id ≠ "7" → m ∈ removeAssistantOnError
        [Message.mk "7" "assistant" "fél válasz" "0" none] "7") ∧
    (failQuery (QueryOutcome.mk [] []) (sampleEvent 3)).persistedMessages = [] ∧
    (failQuery (QueryOutcome.mk [] []) (sampleEvent 3)).metricLog
      = [] ++ [{ sampleEvent 3 with success := false }] ∧
    ({ sampleEvent 3 with success := false } : MetricEvent).success = false ∧
    ({ sampleEvent 3 with success := false } : MetricEvent).total_ms
      = (sampleEvent 3).total_ms :=
  failed_query_discards_partial_turn [Message.mk "7" "assistant" "fél válasz" "0" none] "7"
    (QueryOutcome.mk [] []) (sampleEvent 3)

/-- C6: when no stored chunk clears the relevance floor the retriever
returns the empty sequence as a successful result rather than failing,
the answer carries the empty Source list, and the chat client renders the
sources block neither for an empty nor for an absent source list. -/
theorem empty_retrieval_zero_sources (stored : List (Chunk × ℚ)) (k : Nat)
    (minRel : ℚ) (fname : String → String) (m : Message)
    (h : ∀ p ∈ stored, normalizeCosine p.2 < minRel) :
    vectorQuery stored k minRel = Except.ok [] ∧
    sourcesFrom fname [] = [] ∧
    rendersSources { m with sources := some [] } = false ∧
    rendersSources { m with sources := none } = false := by
  refine ⟨?_, rfl, rfl, rfl⟩
  have hkept : (stored.map fun p => (p.1, normalizeCosine p.2)).filter
      (fun p => minRel ≤ p.2) = [] := by
    rw [List.filter_eq_nil_iff]
    intro q hq
    rcases List.mem_map.mp hq with ⟨p, hp, hpq⟩
    subst hpq
    simpa using not_le.mpr (h p hp)
  simp [vectorQuery, hkept, sortDesc]

/-- Witness for C6: with no ingested documents at all, no chunk clears
the floor, the retrieval result is the empty list and the client hides
the sources block of a message with an empty or missing source list. -/
theorem empty_retrieval_zero_sources_witness :
    vectorQuery [] 5 (mkRat 7 10) = Except.ok [] ∧
    rendersSources { Message.mk "1" "assistant" "nincs adat" "0" none with
      sources := some [] } = false :=
  have hmain := empty_retrieval_zero_sources [] 5 (mkRat 7 10) (fun _ => "doc.pdf")
    (Message.mk "1" "assistant" "nincs adat" "0" none) (by simp)
  ⟨hmain.1, hmain.2.2.1⟩

/-- C7: every relevance score attached to a Source reference produced
from a retrieval result lies in the unit interval and renders as a
percentage between 0 and 100, and the average relevance reported by the
metrics aggregate lies in the unit interval and renders as a percentage
between 0 and 100, provided the raw cosine similarities lie in [-1, 1]
and the recorded per-event average relevances lie in [0, 1]. -/
theorem relevance_scores_in_unit_interval (stored : List (Chunk × ℚ)) (k : Nat)
    (minRel : ℚ) (fname : String → String) (evs : List MetricEvent) (now : Int)
    (window : Option Int)
    (hraw : ∀ p ∈ stored, -1 ≤ p.2 ∧ p.2 ≤ 1)
    (hevs : ∀ e ∈ evs, 0 ≤ e.avg_relevance ∧ e.avg_relevance ≤ 1) :
    (∀ res, vectorQuery stored k minRel = Except.ok res →
      ∀ s ∈ sourcesFrom fname res,
        (0 ≤ s.relevance_score ∧ s.relevance_score ≤ 1) ∧
        (0 ≤ sourcePercent s ∧ sourcePercent s ≤ 100)) ∧
    (0 ≤ (stats evs now window).avg_relevance ∧
      (stats evs now window).avg_relevance ≤ 1) ∧
    (0 ≤ dashboardRelevancePercent (stats evs now window) ∧
      dashboardRelevancePercent (stats evs now window) ≤ 100) := by
  have hwin : ∀ e ∈ eventsInWindow evs now window,
      0 ≤ e.avg_relevance ∧ e.avg_relevance ≤ 1 := by
    intro e he
    cases window with
    | none => exact hevs e he
    | some w => exact hevs e (List.mem_of_mem_filter he)
  have havg : 0 ≤ (stats evs now window).avg_relevance ∧
      (stats evs now window).avg_relevance ≤ 1 :=
    avgQ_unit (fun e => e.avg_relevance) (eventsInWindow evs now window) hwin
  refine ⟨?_, havg, ?_⟩
  · intro res hres s hs
    have hres2 : (sortDesc ((stored.map fun p => (p.1, normalizeCosine p.2)).filter
        (fun p => minRel ≤ p.2))).take k = res := by
      simpa [vectorQuery] using hres
    rcases List.mem_map.mp hs with ⟨p, hp, hps⟩
    rw [← hres2] at hp
    have hp2 : p ∈ sortDesc ((stored.map fun p => (p.1, normalizeCosine p.2)).filter
        (fun p => minRel ≤ p.2)) := List.mem_of_mem_take hp
    have hp3 := (mem_sortDesc _ _).mp hp2
    have hp4 := List.mem_of_mem_filter hp3
    rcases List.mem_map.mp hp4 with ⟨q, hq, hqp⟩
    have hrel : s.relevance_score = normalizeCosine q.2 := by
      rw [← hps, ← hqp]
    have hb := normalizeCosine_mem_unit q.2 (hraw q hq).1 (hraw q hq).2
    rw [hrel]
    refine ⟨hb, ?_⟩
    unfold sourcePercent
    rw [hrel]
    constructor
    · nlinarith [hb.1]
    · nlinarith [hb.2]
  · unfold dashboardRelevancePercent
    constructor
    · nlinarith [havg.1]
    · nlinarith [havg.2]

/-- Witness for C7: on an empty index and a store holding one fully
relevant event, the reported average relevance and its percentage
rendering lie in range. -/
theorem relevance_scores_in_unit_interval_witness :
    (0 ≤ (stats [sampleEvent 5] 0 none).avg_relevance ∧
      (stats [sampleEvent 5] 0 none).avg_relevance ≤ 1) ∧
    (0 ≤ dashboardRelevancePercent (stats [sampleEvent 5] 0 none) ∧
      dashboardRelevancePercent (stats [sampleEvent 5] 0 none) ≤ 100) :=
  have hmain := relevance_scores_in_unit_interval [] 3 1 (fun _ => "f.pdf")
    [sampleEvent 5] 0 none (by simp) (by decide)
  ⟨hmain.2.1, hmain.2.2⟩

/-- C10: the drag-and-drop path of DocumentUpload selects a dropped file
whose name carries none of the extensions admitted by the file picker
accept attribute: the extension restriction is not enforced by
`handleDrop`. -/
theorem drop_bypasses_extension_restriction :
    ∃ f : FileInfo, hasAcceptedExtension f.name = false ∧
      ∀ st : UploadState,
        (handleDrop st [f]).selectedFile = some f ∧
        (handleDrop st [f]).uploadSuccess = false :=
  ⟨FileInfo.mk "jelentes.exe" 1024, by decide, fun st => ⟨rfl, rfl⟩⟩

end AlkuszAI
